import Mathlib

/-!
Verification of the crocoite grab engine against its specification.

Each component of the Python source is shallowly embedded as executable
Lean definitions: stateful callbacks become explicit state transitions on
record types, event-loop instants become rational numbers, and fallible
operations return `Except` or `Option`.  The theorems at the end of the
file settle the specification claims against these definitions.
-/

set_option maxHeartbeats 1000000
set_option maxRecDepth 8000

namespace Crocoite

/-! ### Controller: IdleStateTracker (controller.py) -/

/-- An item flowing through the controller handler chain.  The `pageIdle`
constructor is modelled from the spec: the `PageIdle` event class wraps a
boolean (spec data model, behavior event `PageIdle (boolean)`); its
defining browser-module revision is absent, only its consumer
`IdleStateTracker.push` is present. -/
inductive ControllerEvent where
  | pageIdle (b : Bool)
  | frameNavigated (url : String)
  | other
deriving DecidableEq, Repr

/-- State of `IdleStateTracker`: the `_idle` flag and the event-loop time
`_idleSince` of the most recent transition to idle. -/
structure IdleStateTracker where
  _idle : Bool
  _idleSince : ℚ
deriving DecidableEq, Repr

/-- `IdleStateTracker.__init__`: a fresh tracker is idle and `_idleSince`
is the construction-time clock value `self._loop.time ()`. -/
def idleInit (now : ℚ) : IdleStateTracker :=
  { _idle := true, _idleSince := now }

/-- `IdleStateTracker.push` at clock value `now`: only `PageIdle` items
change the state; the flag becomes the event payload and, on turning
idle, `_idleSince` is set to the current time. -/
def idlePush (st : IdleStateTracker) (now : ℚ) : ControllerEvent → IdleStateTracker
  | .pageIdle b => { _idle := b, _idleSince := if b then now else st._idleSince }
  | _ => st

/-- One iteration of the loop in `IdleStateTracker.wait`: `none` means the
loop breaks (the wait returns), `some s` means the coroutine sleeps `s`
seconds before re-checking. -/
def waitStep (t : ℚ) (st : IdleStateTracker) (now : ℚ) : Option ℚ :=
  if st._idle then
    let sleep := t - (now - st._idleSince)
    if sleep ≤ 0 then none else some sleep
  else some t

/-- Run of `IdleStateTracker.wait` during which no event is pushed (the
tracker state stays fixed).  `eps` lists the scheduling overhead added to
each `asyncio.sleep`; the run returns `some r` when the wait returns at
instant `r` before exhausting `eps`. -/
def waitRun (t : ℚ) (st : IdleStateTracker) : ℚ → List ℚ → Option ℚ
  | now, [] =>
    match waitStep t st now with
    | none => some now
    | some _ => none
  | now, e :: rest =>
    match waitStep t st now with
    | none => some now
    | some s => waitRun t st (now + s + e) rest

/-! ### Tab collector: SiteLoader (browser.py) -/

/-- A split URL as produced by `urlsplit`; the collector inspects only the
scheme, the remainder is carried opaquely. -/
structure SplitUrl where
  scheme : String
  rest : String
deriving DecidableEq, Repr

/-- `SiteLoader.allowedSchemes`. -/
def allowedSchemes : List String := ["http", "https"]

/-- The `request` object of a `requestWillBeSent` event. -/
structure NetRequest where
  url : SplitUrl
deriving DecidableEq, Repr

/-- A response object as delivered by Chrome. -/
structure NetResponse where
  url : SplitUrl
  status : ℤ
deriving DecidableEq, Repr

/-- Keyword arguments of a `Network.requestWillBeSent` event. -/
structure RequestWillBeSentEvent where
  requestId : String
  request : NetRequest
  timestamp : ℚ
  redirectResponse : Option NetResponse
deriving DecidableEq, Repr

/-- Keyword arguments of a `Network.responseReceived` event. -/
structure ResponseReceivedEvent where
  requestId : String
  response : NetResponse
  timestamp : ℚ
deriving DecidableEq, Repr

/-- Keyword arguments of a `Network.loadingFinished` event. -/
structure LoadingFinishedEvent where
  requestId : String
  encodedDataLength : ℤ
  timestamp : ℚ
deriving DecidableEq, Repr

/-- The `chromeResponse` slot of an `Item`: the kwargs of a real
`responseReceived` event, or the fake response dict built on a redirect. -/
structure StoredResponse where
  requestId : String
  response : NetResponse
  timestamp : ℚ
deriving DecidableEq, Repr

/-- The `chromeFinished` slot of an `Item`: the kwargs of a real
`loadingFinished` event, or the fake dict built on a redirect. -/
structure StoredFinished where
  requestId : String
  encodedDataLength : ℤ
  timestamp : ℚ
deriving DecidableEq, Repr

/-- `browser.Item`: wrapper holding the Chrome request, response and
loading-finished payloads of one request id. -/
structure Item where
  chromeRequest : RequestWillBeSentEvent
  chromeResponse : Option StoredResponse
  chromeFinished : Option StoredFinished
deriving DecidableEq, Repr

/-- A newly constructed `Item` with `setRequest` applied, as built by
`_requestWillBeSent`. -/
def freshItem (ev : RequestWillBeSentEvent) : Item :=
  { chromeRequest := ev, chromeResponse := none, chromeFinished := none }

/-- Observable state of a `SiteLoader`: the in-flight `requests` map and
the chronological list of `loadingFinished (item, redirect)` emissions to
the overrideable callback. -/
structure LoaderState where
  requests : String → Option Item
  emitted : List (Item × Bool)

/-- The empty state of a fresh `SiteLoader`. -/
def emptyLoaderState : LoaderState :=
  { requests := fun _ => none, emitted := [] }

/-- `SiteLoader._requestWillBeSent`: drop the event unless its URL scheme
is allowed; if the id is known and the event carries a `redirectResponse`,
attach fake response and finished dicts (bytes-received 0, event
timestamp) to the existing item and emit it as a redirect; in every
surviving case store a fresh item under the id. -/
def requestWillBeSent (st : LoaderState) (ev : RequestWillBeSentEvent) : LoaderState :=
  if allowedSchemes.contains ev.request.url.scheme then
    let st1 :=
      match st.requests ev.requestId, ev.redirectResponse with
      | some item, some redirectResp =>
          let item' : Item :=
            { item with
              chromeResponse := some { requestId := ev.requestId, response := redirectResp,
                                       timestamp := ev.timestamp }
              chromeFinished := some { requestId := ev.requestId, encodedDataLength := 0,
                                       timestamp := ev.timestamp } }
          { st with emitted := st.emitted ++ [(item', true)] }
      | some _, none => st
      | none, _ => st
    { st1 with requests := fun k => if k = ev.requestId then some (freshItem ev) else st1.requests k }
  else st

/-- `SiteLoader._responseReceived`: attach the response kwargs to the
existing item; ignore unknown ids and disallowed schemes. -/
def responseReceived (st : LoaderState) (ev : ResponseReceivedEvent) : LoaderState :=
  match st.requests ev.requestId with
  | none => st
  | some item =>
      if allowedSchemes.contains ev.response.url.scheme then
        let stored : StoredResponse :=
          { requestId := ev.requestId, response := ev.response, timestamp := ev.timestamp }
        let item' : Item := { item with chromeResponse := some stored }
        { st with requests := fun k => if k = ev.requestId then some item' else st.requests k }
      else st

/-- `SiteLoader._loadingFinished`: pop the item, attach the finished
kwargs and emit it; `.error` models an uncaught Python exception (missing
response object, or the request/response url assertion failing). -/
def loadingFinishedEvent (st : LoaderState) (ev : LoadingFinishedEvent) :
    Except String LoaderState :=
  match st.requests ev.requestId with
  | none => .ok st
  | some item =>
      let popped : LoaderState :=
        { st with requests := fun k => if k = ev.requestId then none else st.requests k }
      match item.chromeResponse with
      | none => .error "TypeError"
      | some resp =>
          if item.chromeRequest.request.url = resp.response.url then
            if allowedSchemes.contains resp.response.url.scheme then
              let fin : StoredFinished :=
                { requestId := ev.requestId, encodedDataLength := ev.encodedDataLength,
                  timestamp := ev.timestamp }
              let item' : Item := { item with chromeFinished := some fin }
              .ok { popped with emitted := popped.emitted ++ [(item', false)] }
            else .ok popped
          else .error "AssertionError"

/-- A network event dispatched to the `SiteLoader` callbacks. -/
inductive NetEvent where
  | rws (ev : RequestWillBeSentEvent)
  | rr (ev : ResponseReceivedEvent)
  | lf (ev : LoadingFinishedEvent)
deriving Repr

/-- Dispatch one event to the matching callback. -/
def netStep (st : LoaderState) : NetEvent → Except String LoaderState
  | .rws e => .ok (requestWillBeSent st e)
  | .rr e => .ok (responseReceived st e)
  | .lf e => loadingFinishedEvent st e

/-- Process a list of events in order, stopping at the first uncaught
exception. -/
def runTrace (st : LoaderState) : List NetEvent → Except String LoaderState
  | [] => .ok st
  | e :: tr =>
      match netStep st e with
      | .ok st' => runTrace st' tr
      | .error msg => .error msg

/-- The `requestWillBeSent` kwargs of the i-th request of a redirect chain
for id `id` visiting urls `u 0, u 1, …`: the first carries no
`redirectResponse`, each later one carries the 301 redirect response of
its predecessor's url. -/
def chainEvent (id : String) (u : ℕ → SplitUrl) : ℕ → RequestWillBeSentEvent
  | 0 => { requestId := id, request := { url := u 0 }, timestamp := 0, redirectResponse := none }
  | i + 1 => { requestId := id, request := { url := u (i + 1) }, timestamp := 0,
               redirectResponse := some { url := u i, status := 301 } }

/-- The `c` redirect `requestWillBeSent` events following request number
`start` of a chain. -/
def redirectChain (id : String) (u : ℕ → SplitUrl) : ℕ → ℕ → List NetEvent
  | _, 0 => []
  | start, c + 1 => .rws (chainEvent id u (start + 1)) :: redirectChain id u (start + 1) c

/-- The `responseReceived` event completing the chase of the chain. -/
def rrEvent (id : String) (u : ℕ → SplitUrl) (n : ℕ) : ResponseReceivedEvent :=
  { requestId := id, response := { url := u n, status := 200 }, timestamp := 0 }

/-- The `loadingFinished` event ending the chain. -/
def lfEvent (id : String) : LoadingFinishedEvent :=
  { requestId := id, encodedDataLength := 0, timestamp := 0 }

/-- The stored response after `rrEvent` was processed. -/
def finalResponse (id : String) (u : ℕ → SplitUrl) (n : ℕ) : StoredResponse :=
  { requestId := id, response := { url := u n, status := 200 }, timestamp := 0 }

/-- The item of the final request of the chain once its response has been
attached. -/
def respondedItem (id : String) (u : ℕ → SplitUrl) (n : ℕ) : Item :=
  { chromeRequest := chainEvent id u n,
    chromeResponse := some (finalResponse id u n),
    chromeFinished := none }

/-- The item as emitted by the final `loadingFinished`. -/
def finishedChainItem (id : String) (u : ℕ → SplitUrl) (n : ℕ) : Item :=
  { chromeRequest := chainEvent id u n,
    chromeResponse := some (finalResponse id u n),
    chromeFinished := some { requestId := id, encodedDataLength := 0, timestamp := 0 } }

/-- The full event trace of a load of `u 0` that is redirected `n` times
and then completes: initial request, `n` redirect requests, response and
loadingFinished for the final url. -/
def redirectTrace (id : String) (u : ℕ → SplitUrl) (n : ℕ) : List NetEvent :=
  .rws (chainEvent id u 0) ::
    (redirectChain id u 0 n ++ [.rr (rrEvent id u n), .lf (lfEvent id)])

/-! ### DevTools transport: Tab (devtools.py) -/

/-- Errors raised by `Tab` operations: `crashed` corresponds to `Crashed`
(constructed with or without a reason argument), the others to
`MethodNotFound`, `InvalidParameter` and the generic `TabException`. -/
inductive TabError where
  | crashed (reason : Option String)
  | methodNotFound (code : ℤ) (msg : String)
  | invalidParameter (code : ℤ) (msg : String)
  | tabException (code : ℤ) (msg : String)
deriving DecidableEq, Repr

/-- `errorMap`: map protocol error codes to native exceptions. -/
def errorMap (code : ℤ) (msg : String) : TabError :=
  if code = -32601 then .methodNotFound code msg
  else if code = -32602 then .invalidParameter code msg
  else .tabException code msg

/-- An unsolicited event frame: method name plus opaque params. -/
structure EventFrame where
  method : String
  params : String
deriving DecidableEq, Repr

/-- A decoded frame received from the websocket: a request reply (with or
without an `error` member) or an event. -/
inductive Frame where
  | result (id : ℤ) (value : String)
  | protoError (id : ℤ) (code : ℤ) (msg : String)
  | event (method : String) (params : String)
deriving DecidableEq, Repr

/-- State of a `Tab`: the `crashed` flag, whether the receive task has
ended, the `transactions` slots of waiting callers (`none` while
pending), the event `queue` (where a `.error` entry is an exception
sentinel) and the next message id. -/
structure TabState where
  crashed : Bool
  recvDone : Bool
  transactions : List (ℤ × Option (Except TabError String))
  queue : List (Except TabError EventFrame)
  msgid : ℤ
deriving Repr

/-- `markCrashed` inside `Tab._recvProcess`: complete every pending
transaction with `Crashed (reason)`, mark the tab crashed, and push a
`Crashed (reason)` sentinel onto the event queue. -/
def markCrashed (st : TabState) (reason : String) : TabState :=
  { st with
    crashed := true
    transactions := st.transactions.map (fun p => (p.1, some (.error (.crashed (some reason)))))
    queue := st.queue ++ [.error (.crashed (some reason))] }

/-- One step of the `Tab._recvProcess` loop.  The input is either a
websocket receive/JSON-decode failure (after which the loop breaks) or a
decoded frame. -/
def recvStep (st : TabState) : Except String Frame → TabState
  | .error e => markCrashed st e
  | .ok (.result id v) =>
      { st with transactions :=
          st.transactions.map (fun p => if p.1 = id then (p.1, some (.ok v)) else p) }
  | .ok (.protoError id code msg) =>
      { st with transactions :=
          st.transactions.map (fun p => if p.1 = id then (p.1, some (.error (errorMap code msg))) else p) }
  | .ok (.event m params) =>
      if m = "Inspector.targetCrashed" then markCrashed st "target"
      else { st with queue := st.queue ++ [.ok { method := m, params := params }] }

/-- Entry of `Tab.__call__`: raise `Crashed ()` when the tab has crashed
or the receive task has ended; otherwise allocate the next message id and
a pending transaction slot for it. -/
def tabCall (st : TabState) : Except TabError (TabState × ℤ) :=
  if st.crashed || st.recvDone then .error (.crashed none)
  else
    let st' : TabState :=
      { st with msgid := st.msgid + 1, transactions := st.transactions ++ [(st.msgid, none)] }
    .ok (st', st.msgid)

/-- `Tab.get`: raise `Crashed ()` on a crashed tab; otherwise take the
next queued entry (`none` models blocking on an empty queue), re-raising
an exception sentinel. -/
def tabGet (st : TabState) : Option (Except TabError (TabState × EventFrame)) :=
  if st.crashed then some (.error (.crashed none))
  else
    match st.queue with
    | [] => none
    | q :: rest =>
        match q with
        | .error e => some (.error e)
        | .ok f => some (.ok ({ st with queue := rest }, f))

/-- The `Crashed` reason used by `_recvProcess` for a given loop input:
the stringified receive failure, or the literal `"target"` for an
`Inspector.targetCrashed` event. -/
def crashReason : Except String Frame → String
  | .error e => e
  | .ok _ => "target"

/-- A sample tab with one caller awaiting message id 5 and one event
queued. -/
def sampleTab : TabState :=
  { crashed := false, recvDone := false,
    transactions := [(5, none)],
    queue := [.ok { method := "Network.requestWillBeSent", params := "p" }],
    msgid := 6 }

/-! ### Browser process supervisor: Process (devtools.py) -/

/-- Errors of the process supervisor.  `spawnError` is modelled from the
spec, which names a `SpawnError` for the port file never appearing; no
such class exists in the source, whose `Process.__aenter__` raises a
plain `Exception (msg)`, modelled by `genericError`. -/
inductive ProcessError where
  | spawnError (msg : String)
  | genericError (msg : String)
deriving DecidableEq, Repr

/-- Whether a poll result is the spec's `SpawnError`. -/
def isSpawnError : Except ProcessError ℕ → Bool
  | .error (.spawnError _) => true
  | _ => false

/-- The polling loop of `Process.__aenter__` with `fuel` attempts left,
next attempt index `i`: `read j` is the content of `DevToolsActivePort`
at attempt `j` (`none` while the file does not exist, after which the
loop sleeps 0.2 s).  Returns the port found (if any), the seconds slept
and the number of attempts made. -/
def pollLoop (read : ℕ → Option ℕ) : ℕ → ℕ → ℚ → ℕ → Option ℕ × ℚ × ℕ
  | 0, _i, slept, attempts => (none, slept, attempts)
  | fuel + 1, i, slept, attempts =>
      match read i with
      | some p => (some p, slept, attempts + 1)
      | none => pollLoop read fuel (i + 1) (slept + 1/5) (attempts + 1)

/-- `Process.__aenter__` after spawning the child: poll for the DevTools
port file (`for i in range (100)`, sleeping 0.2 s per missing file) and
raise `Exception ('Chrome died on us.')` if it never appears.  Returns
the outcome together with the seconds slept and the attempts made. -/
def acquirePort (read : ℕ → Option ℕ) : Except ProcessError ℕ × ℚ × ℕ :=
  match pollLoop read 100 0 0 0 with
  | (some p, slept, attempts) => (.ok p, slept, attempts)
  | (none, slept, attempts) => (.error (.genericError "Chrome died on us."), slept, attempts)

/-- A filesystem on which the DevTools port file never appears. -/
def noPortFile : ℕ → Option ℕ := fun _ => none

/-- One observable action of `Process.__aexit__`. -/
inductive ReleaseAction where
  | terminate
  | wait
  | rmtree (attempt : ℕ) (ok : Bool)
  | sleepd (seconds : ℚ)
deriving DecidableEq, Repr

/-- The profile-directory removal loop of `Process.__aexit__` with `fuel`
attempts left, next attempt index `i`: try `shutil.rmtree` up to five
times, sleeping 0.2 s after each failure (the bare `except` swallows a
failure of the final attempt too). -/
def rmtreeGo (ok : ℕ → Bool) : ℕ → ℕ → List ReleaseAction
  | 0, _i => []
  | fuel + 1, i =>
      if ok i then [.rmtree i true]
      else .rmtree i false :: .sleepd (1/5) :: rmtreeGo ok fuel (i + 1)

/-- `Process.__aexit__`: terminate the child, wait for its exit, then run
the removal retry loop (`for i in range (5)`). -/
def releaseRun (ok : ℕ → Bool) : List ReleaseAction :=
  .terminate :: .wait :: rmtreeGo ok 5 0

/-- Number of removal attempts in a release trace. -/
def countRmtree (tr : List ReleaseAction) : ℕ :=
  (tr.filter (fun a => match a with | .rmtree _ _ => true | _ => false)).length

/-! ### Behavior framework: Screenshot (behavior.py) -/

/-- `Screenshot.maxDim`: hardcoded maximum texture size of 16384. -/
def maxDim : ℕ := 16 * 1024

/-- `contentHeight = max (result + [contentSize ['height']])`: the
maximum of the script-reported element heights and the layout-metrics
content height. -/
def contentHeightOf (result : List ℕ) (layoutContentHeight : ℕ) : ℕ :=
  (result ++ [layoutContentHeight]).foldl Nat.max 0

/-- The screenshot capture loop of `Screenshot.onfinish` from offset
`yoff`: one `(yoff, height)` clip per iteration of
`for yoff in range (0, contentHeight, maxDim)` with
`height = min (contentHeight - yoff, maxDim)`. -/
def clipsFrom (contentHeight yoff : ℕ) : List (ℕ × ℕ) :=
  if _h : yoff < contentHeight then
    (yoff, min (contentHeight - yoff) maxDim) :: clipsFrom contentHeight (yoff + maxDim)
  else []
termination_by contentHeight - yoff
decreasing_by simp only [maxDim]; omega

/-- The `(y-offset, band height)` of the `ScreenshotEvent`s emitted by
`Screenshot.onfinish` for the given script result and layout content
height. -/
def screenshotEvents (result : List ℕ) (layoutContentHeight : ℕ) : List (ℕ × ℕ) :=
  clipsFrom (contentHeightOf result layoutContentHeight) 0

/-! ### Util: StrJsonEncoder (util.py) -/

/-- A finite Python value.  `pyDatetime` carries its `isoformat ()`
rendering, `pyObj` is any other non-JSON-serializable object carrying its
`str ()` rendering. -/
inductive PyValue where
  | pyNone
  | pyBool (b : Bool)
  | pyInt (n : ℤ)
  | pyStr (s : String)
  | pyList (xs : List PyValue)
  | pyDict (kvs : List (PyValue × PyValue))
  | pyDatetime (iso : String)
  | pyObj (strRepr : String)

/-- A JSON document. -/
inductive JValue where
  | jNull
  | jBool (b : Bool)
  | jInt (n : ℤ)
  | jStr (s : String)
  | jArr (xs : List JValue)
  | jObj (kvs : List (String × JValue))

/-- Dictionary-key conversion of the standard `json` encoder
(`_iterencode_dict`): string keys pass through, `True`/`False`/`None` and
ints are coerced to their JSON spellings, every other key raises
`TypeError` without consulting the encoder's `default` method. -/
def keyToStr : PyValue → Option String
  | .pyStr s => some s
  | .pyBool true => some "true"
  | .pyBool false => some "false"
  | .pyNone => some "null"
  | .pyInt n => some (toString n)
  | _ => none

/-- `json.JSONEncoder.default`: always raises
`TypeError (object is not JSON serializable)`. -/
def jsonEncoderDefault (_v : PyValue) : Except String PyValue :=
  .error "Object is not JSON serializable"

/-- The `str ()` rendering of a value handed to `StrJsonEncoder.default`
(only non-serializable values reach it). -/
def pyStrOf : PyValue → String
  | .pyObj s => s
  | .pyDatetime iso => iso
  | .pyNone => "None"
  | .pyBool true => "True"
  | .pyBool false => "False"
  | .pyInt n => toString n
  | .pyStr s => s
  | .pyList _ => "[...]"
  | .pyDict _ => "{...}"

/-- `StrJsonEncoder.default`: datetimes become their ISO-8601 string;
for everything else the base `default` is tried and its `TypeError` is
caught, falling back to `str (obj)`. -/
def strJsonDefault (v : PyValue) : Except String PyValue :=
  match v with
  | .pyDatetime iso => .ok (.pyStr iso)
  | _ =>
      match jsonEncoderDefault v with
      | .ok r => .ok r
      | .error _ => .ok (.pyStr (pyStrOf v))

mutual

/-- Serialization of a value through `json.dumps (…, cls=StrJsonEncoder)`:
the standard encoder handles `None`, booleans, ints, strings, lists and
dicts; any other value is routed through `StrJsonEncoder.default` and its
replacement encoded (the replacement is always a string). -/
def strEncode : PyValue → Except String JValue
  | .pyNone => .ok .jNull
  | .pyBool b => .ok (.jBool b)
  | .pyInt n => .ok (.jInt n)
  | .pyStr s => .ok (.jStr s)
  | .pyList xs =>
      match strEncodeList xs with
      | .ok ys => .ok (.jArr ys)
      | .error e => .error e
  | .pyDict kvs =>
      match strEncodeDict kvs with
      | .ok ys => .ok (.jObj ys)
      | .error e => .error e
  | .pyDatetime iso =>
      match strJsonDefault (.pyDatetime iso) with
      | .ok (.pyStr s) => .ok (.jStr s)
      | _ => .error "unreachable"
  | .pyObj s =>
      match strJsonDefault (.pyObj s) with
      | .ok (.pyStr r) => .ok (.jStr r)
      | _ => .error "unreachable"

/-- Encode the elements of a list. -/
def strEncodeList : List PyValue → Except String (List JValue)
  | [] => .ok []
  | x :: xs =>
      match strEncode x, strEncodeList xs with
      | .ok y, .ok ys => .ok (y :: ys)
      | .error e, _ => .error e
      | _, .error e => .error e

/-- Encode the items of a dict: the key is converted first (raising
`TypeError` for unsupported key types), then the value is encoded. -/
def strEncodeDict : List (PyValue × PyValue) → Except String (List (String × JValue))
  | [] => .ok []
  | (k, v) :: rest =>
      match keyToStr k with
      | none => .error "keys must be str, int, float, bool or None"
      | some ks =>
          match strEncode v, strEncodeDict rest with
          | .ok jv, .ok ys => .ok ((ks, jv) :: ys)
          | .error e, _ => .error e
          | _, .error e => .error e

end

mutual

/-- Whether every dictionary key anywhere inside the value is of a type
the standard JSON encoder accepts as a key. -/
def goodKeys : PyValue → Bool
  | .pyList xs => goodKeysList xs
  | .pyDict kvs => goodKeysDict kvs
  | _ => true

/-- `goodKeys` over list elements. -/
def goodKeysList : List PyValue → Bool
  | [] => true
  | x :: xs => goodKeys x && goodKeysList xs

/-- `goodKeys` over dict items. -/
def goodKeysDict : List (PyValue × PyValue) → Bool
  | [] => true
  | (k, v) :: rest => (keyToStr k).isSome && goodKeys v && goodKeysDict rest

end

/-- Whether an operation completed without raising. -/
def exceptIsOk {α : Type} : Except String α → Bool
  | .ok _ => true
  | .error _ => false

/-! ### WARC serializer: WarcHandler._writeResponse (warc.py)

The HTTP header list lives in a warcio `StatusAndHeaders`; its
`remove_header`, `replace_header` and `get_header` methods are modelled
from the warcio library the source calls into: removal and replacement
scan the header list backwards and affect the last case-insensitive
match (replacement keeps the original header name and appends a new
header when none matches), lookup returns the first match. -/

/-- Python's `str.lower ()` as used on header names, modelled as per-char
lowercasing. -/
def strLower (s : String) : String := String.mk (s.data.map Char.toLower)

/-- Remove the first pair of the list whose lowered name is `nl` (the
list is fed reversed, so this is warcio's backwards scan). -/
def removeFirstHeader : List (String × String) → String → List (String × String)
  | [], _ => []
  | h :: t, nl => if strLower h.1 == nl then t else h :: removeFirstHeader t nl

/-- warcio `StatusAndHeaders.remove_header`. -/
def remove_header (hs : List (String × String)) (name : String) : List (String × String) :=
  (removeFirstHeader hs.reverse (strLower name)).reverse

/-- Replace the value of the first pair whose lowered name is `nl`,
keeping its name; `none` when no pair matches. -/
def replaceFirstHeader : List (String × String) → String → String → Option (List (String × String))
  | [], _, _ => none
  | h :: t, nl, v =>
      if strLower h.1 == nl then some ((h.1, v) :: t)
      else
        match replaceFirstHeader t nl v with
        | some r => some (h :: r)
        | none => none

/-- warcio `StatusAndHeaders.replace_header`. -/
def replace_header (hs : List (String × String)) (name value : String) : List (String × String) :=
  match replaceFirstHeader hs.reverse (strLower name) value with
  | some r => r.reverse
  | none => hs ++ [(name, value)]

/-- warcio `StatusAndHeaders.get_header`. -/
def get_header (hs : List (String × String)) (name : String) : Option String :=
  (hs.find? (fun p => strLower p.1 == strLower name)).map (fun p => p.2)

/-- Number of headers with the given (case-insensitive) name. -/
def countHeader (hs : List (String × String)) (name : String) : ℕ :=
  (hs.filter (fun p => strLower p.1 == strLower name)).length

/-- Python `str ()` of an optional boolean attribute. -/
def pyStrOptBool : Option Bool → String
  | none => "None"
  | some true => "True"
  | some false => "False"

/-- Python `str ()` of a boolean. -/
def pyStrBool : Bool → String
  | true => "True"
  | false => "False"

/-- Python truthiness of an optional string. -/
def optTruthy : Option String → Bool
  | none => false
  | some s => !s.isEmpty

/-- The pair handed to `WarcHandler._writeResponse`, with the fields it
reads: `body` is the prefetch result of `Network.getResponseBody`
(decoded bytes plus the base64 tag; `none` when fetching failed), which
`_writeResponse` accesses only for non-redirect pairs. -/
structure WItem where
  id : String
  url : String
  isRedirect : Bool
  body : Option (List ℕ × Bool)
  status : ℤ
  statusText : String
  remoteIPAddress : Option String
  protocol : Option String
  fromDiskCache : Option Bool
  connectionReused : Option Bool
  mimeType : Option String
  responseHeaders : List (String × String)
  requestWallTime : ℚ
  requestTimestamp : ℚ
  responseTimestamp : ℚ
  resourceType : String
deriving DecidableEq, Repr

/-- The WARC headers dict built by `_writeResponse`; conditionally added
keys are `Option`-valued, and `warcDate` carries the POSIX timestamp the
date header is rendered from. -/
structure WarcRespHeaders where
  warcConcurrentTo : String
  warcIPAddress : String
  xChromeProtocol : String
  xChromeFromDiskCache : String
  xChromeConnectionReused : String
  xChromeRequestId : String
  warcDate : ℚ
  warcTruncated : Option String
  xChromeBase64Body : Option String
deriving DecidableEq, Repr

/-- The WARC response record written by `_writeResponse`, plus whether
`Network.getResponseBody` was consulted (`item.body` is evaluated only
when the short-circuit `item.isRedirect or item.body is None` reaches its
second operand). -/
structure RespRecord where
  warcHeaders : WarcRespHeaders
  statusLine : String
  httpHeaders : List (String × String)
  payload : List ℕ
  calledGetResponseBody : Bool
deriving DecidableEq, Repr

/-- The HTTP header rewriting performed by `_writeResponse`: strip
`transfer-encoding` and `content-encoding` (content is recorded decoded
and decompressed), override `content-type` with the declared MIME type
plus `; charset=utf-8` for text bodies, and set `content-length` to the
recorded body length when a body is present. -/
def processHttpHeaders (hs : List (String × String)) (mimeType : Option String)
    (base64Encoded : Bool) (rawBody : Option (List ℕ)) : List (String × String) :=
  let h1 := remove_header hs "transfer-encoding"
  let h2 := remove_header h1 "content-encoding"
  let h3 :=
    match mimeType with
    | none => h2
    | some ct =>
        if ct.isEmpty then h2
        else replace_header h2 "content-type"
               (if base64Encoded then ct else ct ++ "; charset=utf-8")
  match rawBody with
  | some b => replace_header h3 "content-length" (toString b.length)
  | none => h3

/-- `WarcHandler._writeResponse`. -/
def writeResponse (item : WItem) (concurrentTo : String) : RespRecord :=
  let fetched := !item.isRedirect
  let bodyInfo : Option (List ℕ) × Bool × Option String :=
    match item.isRedirect, item.body with
    | true, _ => (none, false, some "unspecified")
    | false, none => (none, false, some "unspecified")
    | false, some (b, enc) => (some b, enc, none)
  let rawBody := bodyInfo.1
  let base64Encoded := bodyInfo.2.1
  let bodyTruncated := bodyInfo.2.2
  let warcHeaders : WarcRespHeaders :=
    { warcConcurrentTo := concurrentTo
      warcIPAddress := item.remoteIPAddress.getD ""
      xChromeProtocol := item.protocol.getD ""
      xChromeFromDiskCache := pyStrOptBool item.fromDiskCache
      xChromeConnectionReused := pyStrOptBool item.connectionReused
      xChromeRequestId := item.id
      warcDate := item.requestWallTime + (item.responseTimestamp - item.requestTimestamp)
      warcTruncated := if optTruthy bodyTruncated then bodyTruncated else none
      xChromeBase64Body := if optTruthy bodyTruncated then none
                           else some (pyStrBool base64Encoded) }
  { warcHeaders := warcHeaders
    statusLine := toString item.status ++ " " ++ item.statusText
    httpHeaders := processHttpHeaders item.responseHeaders item.mimeType base64Encoded rawBody
    payload := rawBody.getD []
    calledGetResponseBody := fetched }

/-! ### Sample inputs used by the witness theorems -/

/-- A family of http urls, one per redirect hop. -/
def httpUrls : ℕ → SplitUrl := fun i => { scheme := "http", rest := toString i }

/-- A `requestWillBeSent` event with a non-http scheme. -/
def ftpEvent : RequestWillBeSentEvent :=
  { requestId := "r1", request := { url := { scheme := "ftp", rest := "host/f" } },
    timestamp := 1, redirectResponse := none }

/-- The in-flight item of the sample redirect step. -/
def itemA : Item :=
  freshItem { requestId := "r1", request := { url := httpUrls 0 },
              timestamp := 0, redirectResponse := none }

/-- A loader state holding `itemA` under id `r1`. -/
def stateWithA : LoaderState :=
  { requests := fun k => if k = "r1" then some itemA else none, emitted := [] }

/-- A redirect `requestWillBeSent` reusing id `r1`. -/
def redirectEvB : RequestWillBeSentEvent :=
  { requestId := "r1", request := { url := httpUrls 1 },
    timestamp := 2, redirectResponse := some { url := httpUrls 0, status := 301 } }

/-- A non-redirect text response pair with headers to strip. -/
def sampleTextItem : WItem :=
  { id := "t1", url := "http://host/x", isRedirect := false,
    body := some ([104, 105], false), status := 200, statusText := "OK",
    remoteIPAddress := some "10.0.0.1", protocol := some "h2",
    fromDiskCache := some false, connectionReused := some false,
    mimeType := some "text/html",
    responseHeaders := [("Content-Type", "text/html; charset=ISO-8859-1"),
                        ("Transfer-Encoding", "chunked"),
                        ("Content-Encoding", "gzip"),
                        ("Content-Length", "999"),
                        ("Server", "demo")],
    requestWallTime := 0, requestTimestamp := 0, responseTimestamp := 0,
    resourceType := "Document" }

/-- A redirect pair. -/
def sampleRedirectItem : WItem :=
  { id := "t2", url := "http://host/y", isRedirect := true,
    body := some ([1], true), status := 301, statusText := "Moved Permanently",
    remoteIPAddress := none, protocol := none,
    fromDiskCache := none, connectionReused := none,
    mimeType := some "text/html",
    responseHeaders := [("Location", "http://host/z")],
    requestWallTime := 0, requestTimestamp := 0, responseTimestamp := 0,
    resourceType := "Document" }

/-! ## Theorems -/

/-! ### IdleStateTracker -/

theorem waitStep_eq_none (t : ℚ) (st : IdleStateTracker) (now : ℚ)
    (h : waitStep t st now = none) : st._idle = true ∧ st._idleSince + t ≤ now := by
  cases hi : st._idle with
  | false => rw [waitStep, hi] at h; simp at h
  | true =>
      rw [waitStep, hi] at h
      simp only [if_true] at h
      refine ⟨rfl, ?_⟩
      by_cases hc : t - (now - st._idleSince) ≤ 0
      · linarith
      · rw [if_neg hc] at h; simp at h

theorem waitStep_idle_elapsed (t : ℚ) (st : IdleStateTracker) (now : ℚ)
    (hi : st._idle = true) (h : st._idleSince + t ≤ now) :
    waitStep t st now = none := by
  rw [waitStep, hi]
  simp only [if_true]
  rw [if_pos (by linarith)]

theorem waitRun_some_bound (t : ℚ) (st : IdleStateTracker) :
    ∀ (eps : List ℚ) (now r : ℚ), waitRun t st now eps = some r →
      st._idle = true ∧ st._idleSince + t ≤ r := by
  intro eps
  induction eps with
  | nil =>
      intro now r h
      cases hs : waitStep t st now with
      | none =>
          simp only [waitRun, hs, Option.some.injEq] at h
          subst h
          exact waitStep_eq_none t st now hs
      | some s => simp [waitRun, hs] at h
  | cons e rest ih =>
      intro now r h
      cases hs : waitStep t st now with
      | none =>
          simp only [waitRun, hs, Option.some.injEq] at h
          subst h
          exact waitStep_eq_none t st now hs
      | some s =>
          simp only [waitRun, hs] at h
          exact ih (now + s + e) r h

/-- C3: `IdleStateTracker.wait t` returns only once the tracker has been
idle for at least `t` seconds since `_idleSince` — immediately, with no
sleep, when that much time has already elapsed; while not idle every
re-check sleeps the full `t`; and when the page is idle from time 0
onwards, a wait started at time 0 returns at `t` plus one scheduling
overhead, hence within `[t, t + tick]`. -/
theorem c3_idle_wait :
    (∀ (t : ℚ) (st : IdleStateTracker) (eps : List ℚ) (now r : ℚ),
        waitRun t st now eps = some r → st._idle = true ∧ st._idleSince + t ≤ r)
    ∧ (∀ (t : ℚ) (st : IdleStateTracker) (now : ℚ),
        st._idle = true → st._idleSince + t ≤ now → waitRun t st now [] = some now)
    ∧ (∀ (t : ℚ) (st : IdleStateTracker) (now : ℚ),
        st._idle = false → waitStep t st now = some t)
    ∧ (∀ t e tick : ℚ, 0 < t → 0 ≤ e → e ≤ tick →
        waitRun t { _idle := true, _idleSince := 0 } 0 [e] = some (t + e)
          ∧ t ≤ t + e ∧ t + e ≤ t + tick) := by
  refine ⟨fun t st eps now r h => waitRun_some_bound t st eps now r h,
          fun t st now hi h => ?_, fun t st now hi => ?_, fun t e tick ht he htick => ?_⟩
  · have hs := waitStep_idle_elapsed t st now hi h
    simp [waitRun, hs]
  · rw [waitStep, hi]; simp
  · refine ⟨?_, by linarith, by linarith⟩
    have e1 : waitStep t { _idle := true, _idleSince := 0 } 0 = some t := by
      rw [waitStep]
      simp only [if_true]
      rw [if_neg (by simpa using ht.not_le)]
      norm_num
    have e2 : waitStep t { _idle := true, _idleSince := 0 } (t + e) = none := by
      apply waitStep_idle_elapsed
      · rfl
      · show (0 : ℚ) + t ≤ t + e
        linarith
    simp [waitRun, e1, e2]

theorem c3_idle_wait_witness :
    ((0 : ℚ) + 2 ≤ 5)
      ∧ waitRun 2 { _idle := true, _idleSince := 0 } 5 [] = some 5
      ∧ waitStep 2 { _idle := false, _idleSince := 0 } 1 = some 2
      ∧ waitRun 2 { _idle := true, _idleSince := 0 } 0 [1] = some (2 + 1) := by
  have h1 := c3_idle_wait.1 2 { _idle := true, _idleSince := 0 } [] 5 5
    (by norm_num [waitRun, waitStep])
  have h2 := c3_idle_wait.2.1 2 { _idle := true, _idleSince := 0 } 5 rfl (by norm_num)
  have h3 := c3_idle_wait.2.2.1 2 { _idle := false, _idleSince := 0 } 1 rfl
  have h4 := (c3_idle_wait.2.2.2 2 1 1 (by norm_num) (by norm_num) (by norm_num)).1
  exact ⟨h1.2, h2, h3, h4⟩

/-- C10: a freshly constructed `IdleStateTracker` is already idle with
`_idleSince` equal to the construction time, so `wait t` can return after
`t` seconds (plus one scheduling overhead) even if no `PageIdle` event
was ever pushed; pushing any item that is not a `PageIdle` leaves the
flag and the timestamp unchanged. -/
theorem c10_idle_tracker_init :
    (∀ now : ℚ, (idleInit now)._idle = true ∧ (idleInit now)._idleSince = now)
    ∧ (∀ (st : IdleStateTracker) (now : ℚ) (url : String),
        idlePush st now (.frameNavigated url) = st ∧ idlePush st now .other = st)
    ∧ (∀ t now e : ℚ, 0 < t → 0 ≤ e →
        waitRun t (idleInit now) now [e] = some (now + t + e)) := by
  refine ⟨fun now => ⟨rfl, rfl⟩, fun st now url => ⟨rfl, rfl⟩, fun t now e ht he => ?_⟩
  have e1 : waitStep t (idleInit now) now = some t := by
    rw [waitStep, idleInit]
    simp only [if_true]
    rw [sub_self, sub_zero, if_neg ht.not_le]
  have e2 : waitStep t (idleInit now) (now + t + e) = none := by
    apply waitStep_idle_elapsed
    · rfl
    · show now + t ≤ now + t + e
      linarith
  simp [waitRun, e1, e2]

theorem c10_idle_tracker_init_witness :
    idlePush { _idle := false, _idleSince := 3 } 7 .other = { _idle := false, _idleSince := 3 }
      ∧ waitRun 2 (idleInit 1) 1 [0] = some (1 + 2 + 0) :=
  ⟨(c10_idle_tracker_init.2.1 { _idle := false, _idleSince := 3 } 7 "u").2,
   c10_idle_tracker_init.2.2 2 1 0 (by norm_num) (by norm_num)⟩

/-! ### SiteLoader -/

theorem chainEvent_requestId (id : String) (u : ℕ → SplitUrl) (n : ℕ) :
    (chainEvent id u n).requestId = id := by
  cases n <;> rfl

theorem chainEvent_request (id : String) (u : ℕ → SplitUrl) (n : ℕ) :
    (chainEvent id u n).request = { url := u n } := by
  cases n <;> rfl

theorem runTrace_append (t1 : List NetEvent) :
    ∀ (st : LoaderState) (t2 : List NetEvent),
      runTrace st (t1 ++ t2) =
        match runTrace st t1 with
        | .ok s => runTrace s t2
        | .error e => .error e := by
  induction t1 with
  | nil => intro st t2; rfl
  | cons e tr ih =>
      intro st t2
      simp only [List.cons_append, runTrace]
      cases h : netStep st e with
      | ok s =>
          simp only []
          exact ih s t2
      | error msg => simp only []

theorem requestWillBeSent_redirect (st : LoaderState) (ev : RequestWillBeSentEvent)
    (item : Item) (redirectResp : NetResponse)
    (hc : allowedSchemes.contains ev.request.url.scheme = true)
    (hst : st.requests ev.requestId = some item)
    (hred : ev.redirectResponse = some redirectResp) :
    (requestWillBeSent st ev).emitted = st.emitted ++
        [({ item with
            chromeResponse := some { requestId := ev.requestId, response := redirectResp,
                                     timestamp := ev.timestamp },
            chromeFinished := some { requestId := ev.requestId, encodedDataLength := 0,
                                     timestamp := ev.timestamp } }, true)]
      ∧ (requestWillBeSent st ev).requests ev.requestId = some (freshItem ev) := by
  rw [requestWillBeSent]
  rw [hc]
  simp only [if_true, hst, hred]
  exact ⟨trivial, by simp⟩

theorem redirectChain_run (id : String) (u : ℕ → SplitUrl)
    (hu : ∀ i, (u i).scheme = "http") :
    ∀ (c start : ℕ) (st : LoaderState),
      st.requests id = some (freshItem (chainEvent id u start)) →
      ∃ st', runTrace st (redirectChain id u start c) = .ok st'
        ∧ st'.emitted.length = st.emitted.length + c
        ∧ st'.requests id = some (freshItem (chainEvent id u (start + c))) := by
  intro c
  induction c with
  | zero =>
      intro start st hst
      exact ⟨st, rfl, by simp, by simpa using hst⟩
  | succ c ih =>
      intro start st hst
      have hid : (chainEvent id u (start + 1)).requestId = id := rfl
      have hc : allowedSchemes.contains (chainEvent id u (start + 1)).request.url.scheme = true := by
        show allowedSchemes.contains (u (start + 1)).scheme = true
        rw [hu (start + 1)]
        decide
      have hred : (chainEvent id u (start + 1)).redirectResponse =
          some { url := u start, status := 301 } := rfl
      have hstep := requestWillBeSent_redirect st (chainEvent id u (start + 1))
        (freshItem (chainEvent id u start)) { url := u start, status := 301 }
        hc (by rw [hid]; exact hst) hred
      have hrun : runTrace st (redirectChain id u start (c + 1)) =
          runTrace (requestWillBeSent st (chainEvent id u (start + 1)))
            (redirectChain id u (start + 1) c) := rfl
      have h2b : (requestWillBeSent st (chainEvent id u (start + 1))).requests id =
          some (freshItem (chainEvent id u (start + 1))) := by
        rw [← hid]
        exact hstep.2
      obtain ⟨st', hrun', hlen, hreq⟩ :=
        ih (start + 1) (requestWillBeSent st (chainEvent id u (start + 1))) h2b
      refine ⟨st', ?_, ?_, ?_⟩
      · rw [hrun]; exact hrun'
      · rw [hlen, hstep.1]
        simp only [List.length_append, List.length_singleton]
        omega
      · have heq : start + (c + 1) = (start + 1) + c := by omega
        rw [heq]; exact hreq

/-- C1: when a `requestWillBeSent` arrives whose id is in flight and which
carries a `redirectResponse`, the collector attaches that response (with
bytes-received 0 and the event timestamp) to the existing pair, emits it
immediately with the redirect flag set, and stores a fresh pair for the
new request under the same id; consequently, over a trace of `n`
redirects followed by a completed load, exactly `n + 1` pairs are emitted
for the id. -/
theorem c1_redirect_pair_emission :
    (∀ (st : LoaderState) (ev : RequestWillBeSentEvent) (item : Item)
        (redirectResp : NetResponse),
        allowedSchemes.contains ev.request.url.scheme = true →
        st.requests ev.requestId = some item →
        ev.redirectResponse = some redirectResp →
        (requestWillBeSent st ev).emitted = st.emitted ++
            [({ item with
                chromeResponse := some { requestId := ev.requestId, response := redirectResp,
                                         timestamp := ev.timestamp },
                chromeFinished := some { requestId := ev.requestId, encodedDataLength := 0,
                                         timestamp := ev.timestamp } }, true)]
          ∧ (requestWillBeSent st ev).requests ev.requestId = some (freshItem ev))
    ∧ (∀ (id : String) (u : ℕ → SplitUrl) (n : ℕ), (∀ i, (u i).scheme = "http") →
        (runTrace emptyLoaderState (redirectTrace id u n)).map
            (fun st => st.emitted.length) = .ok (n + 1)) := by
  constructor
  · exact fun st ev item redirectResp hc hst hred =>
      requestWillBeSent_redirect st ev item redirectResp hc hst hred
  · intro id u n hu
    -- the initial request creates a fresh pair
    have hc0 : allowedSchemes.contains (chainEvent id u 0).request.url.scheme = true := by
      show allowedSchemes.contains (u 0).scheme = true
      rw [hu 0]
      decide
    have hA1 : (requestWillBeSent emptyLoaderState (chainEvent id u 0)).requests id =
        some (freshItem (chainEvent id u 0)) := by
      rw [requestWillBeSent]
      rw [hc0]
      simp [emptyLoaderState, chainEvent]
    have hA2 : (requestWillBeSent emptyLoaderState (chainEvent id u 0)).emitted = [] := by
      rw [requestWillBeSent]
      rw [hc0]
      simp [emptyLoaderState, chainEvent]
    -- the redirect chain emits one pair per hop
    obtain ⟨stB, hB, hBlen, hBreq⟩ :=
      redirectChain_run id u hu n 0 (requestWillBeSent emptyLoaderState (chainEvent id u 0)) hA1
    rw [hA2] at hBlen
    simp only [List.length_nil, Nat.zero_add] at hBlen
    rw [Nat.zero_add] at hBreq
    have hcn : allowedSchemes.contains (u n).scheme = true := by
      rw [hu n]
      decide
    -- the responseReceived step attaches the final response
    have hC1 : (responseReceived stB (rrEvent id u n)).requests id =
        some (respondedItem id u n) := by
      rw [responseReceived.eq_def]
      have hsc : stB.requests (rrEvent id u n).requestId =
          some (freshItem (chainEvent id u n)) := hBreq
      rw [hsc]
      rw [show (rrEvent id u n).response.url.scheme = (u n).scheme from rfl, hcn]
      simp [rrEvent, respondedItem, finalResponse, freshItem]
    have hC2 : (responseReceived stB (rrEvent id u n)).emitted = stB.emitted := by
      rw [responseReceived.eq_def]
      rw [show stB.requests (rrEvent id u n).requestId =
            some (freshItem (chainEvent id u n)) from hBreq]
      rw [show (rrEvent id u n).response.url.scheme = (u n).scheme from rfl, hcn]
      simp
    -- the loadingFinished step pops and emits the completed pair
    have hD : loadingFinishedEvent (responseReceived stB (rrEvent id u n)) (lfEvent id) =
        .ok { requests := fun k => if k = id then none
                else (responseReceived stB (rrEvent id u n)).requests k,
              emitted := (responseReceived stB (rrEvent id u n)).emitted ++
                [(finishedChainItem id u n, false)] } := by
      rw [loadingFinishedEvent.eq_def]
      rw [show (responseReceived stB (rrEvent id u n)).requests (lfEvent id).requestId =
            some (respondedItem id u n) from hC1]
      simp only [respondedItem, finalResponse, lfEvent, finishedChainItem, hcn,
        chainEvent_request]
      simp
    -- assemble the full trace
    have hsplit : runTrace emptyLoaderState (redirectTrace id u n) =
        runTrace (requestWillBeSent emptyLoaderState (chainEvent id u 0))
          (redirectChain id u 0 n ++ [.rr (rrEvent id u n), .lf (lfEvent id)]) := rfl
    rw [hsplit, runTrace_append (redirectChain id u 0 n), hB]
    show (runTrace stB [.rr (rrEvent id u n), .lf (lfEvent id)]).map
        (fun st => st.emitted.length) = .ok (n + 1)
    have htail : runTrace stB [.rr (rrEvent id u n), .lf (lfEvent id)] =
        match loadingFinishedEvent (responseReceived stB (rrEvent id u n)) (lfEvent id) with
        | .ok st' => runTrace st' []
        | .error m => .error m := rfl
    rw [htail, hD]
    show Except.ok ((responseReceived stB (rrEvent id u n)).emitted ++
        [(finishedChainItem id u n, false)]).length = Except.ok (n + 1)
    rw [hC2]
    simp [hBlen]

theorem c1_redirect_pair_emission_witness :
    (requestWillBeSent stateWithA redirectEvB).requests "r1" = some (freshItem redirectEvB)
      ∧ (runTrace emptyLoaderState (redirectTrace "r1" httpUrls 2)).map
          (fun st => st.emitted.length) = .ok (2 + 1) :=
  ⟨(c1_redirect_pair_emission.1 stateWithA redirectEvB itemA
      { url := httpUrls 0, status := 301 } (by decide) rfl rfl).2,
   c1_redirect_pair_emission.2 "r1" httpUrls 2 (fun _ => rfl)⟩

/-- C7: a `requestWillBeSent` event whose URL scheme is neither http nor
https leaves the collector completely unchanged: no pair object is
created, the in-flight map is untouched and nothing is emitted. -/
theorem c7_scheme_filter_noop (st : LoaderState) (ev : RequestWillBeSentEvent)
    (h : allowedSchemes.contains ev.request.url.scheme = false) :
    requestWillBeSent st ev = st := by
  rw [requestWillBeSent]
  rw [h]
  simp

theorem c7_scheme_filter_noop_witness :
    requestWillBeSent emptyLoaderState ftpEvent = emptyLoaderState :=
  c7_scheme_filter_noop emptyLoaderState ftpEvent (by decide)

/-! ### Tab crash propagation -/

/-- C2: after a websocket receive failure or an `Inspector.targetCrashed`
event, every transaction slot is completed with a `Crashed` result (so
every caller awaiting a DevTools reply fails with `Crashed`), the tab is
marked crashed so every subsequent call and every subsequent event
retrieval raises `Crashed`, and a `Crashed` sentinel is appended to the
event queue. -/
theorem c2_crash_propagation (st : TabState) (input : Except String Frame)
    (h : (∃ e, input = .error e) ∨ (∃ p, input = .ok (.event "Inspector.targetCrashed" p))) :
    (recvStep st input).transactions =
        st.transactions.map (fun p => (p.1, some (.error (.crashed (some (crashReason input))))))
      ∧ (recvStep st input).crashed = true
      ∧ tabCall (recvStep st input) = .error (.crashed none)
      ∧ tabGet (recvStep st input) = some (.error (.crashed none))
      ∧ (recvStep st input).queue =
          st.queue ++ [.error (.crashed (some (crashReason input)))] := by
  have hmc : recvStep st input = markCrashed st (crashReason input) := by
    rcases h with ⟨e, rfl⟩ | ⟨p, rfl⟩
    · rfl
    · rw [recvStep, crashReason]
      simp
  rw [hmc]
  refine ⟨rfl, rfl, ?_, ?_, rfl⟩
  · rw [tabCall]
    simp [markCrashed]
  · rw [tabGet]
    simp [markCrashed]

theorem c2_crash_propagation_witness :
    tabCall (recvStep sampleTab (.error "connection closed")) = .error (.crashed none)
      ∧ tabGet (recvStep sampleTab (.error "connection closed")) = some (.error (.crashed none))
      ∧ (recvStep sampleTab (.error "connection closed")).transactions =
          [(5, some (.error (.crashed (some "connection closed"))))] := by
  have h := c2_crash_propagation sampleTab (.error "connection closed")
    (Or.inl ⟨"connection closed", rfl⟩)
  exact ⟨h.2.2.1, h.2.2.2.1, h.1⟩

/-! ### Screenshot bands -/

theorem clipsFrom_eq_aux (H : ℕ) :
    ∀ (d y : ℕ), H - y ≤ d →
      clipsFrom H y = (List.range ((H - y + maxDim - 1) / maxDim)).map
        (fun k => (y + maxDim * k, min (H - (y + maxDim * k)) maxDim)) := by
  intro d
  induction d with
  | zero =>
      intro y hy
      have h1 : ¬ y < H := by omega
      rw [clipsFrom, dif_neg h1]
      have h2 : (H - y + maxDim - 1) / maxDim = 0 := by
        simp only [maxDim]
        omega
      rw [h2]
      rfl
  | succ d ih =>
      intro y hy
      by_cases h : y < H
      · rw [clipsFrom, dif_pos h]
        have hcount : (H - y + maxDim - 1) / maxDim =
            (H - (y + maxDim) + maxDim - 1) / maxDim + 1 := by
          simp only [maxDim]
          omega
        have htail := ih (y + maxDim) (by simp only [maxDim] at *; omega)
        rw [hcount, List.range_succ_eq_map, List.map_cons, List.map_map, htail]
        have hfun : (fun k => (y + maxDim + maxDim * k,
              min (H - (y + maxDim + maxDim * k)) maxDim)) =
            ((fun k => (y + maxDim * k, min (H - (y + maxDim * k)) maxDim)) ∘ Nat.succ) := by
          funext k
          simp only [Function.comp_apply]
          have harith : y + maxDim + maxDim * k = y + maxDim * (k + 1) := by ring
          rw [harith]
        rw [hfun]
        simp
      · rw [clipsFrom, dif_neg h]
        have h2 : (H - y + maxDim - 1) / maxDim = 0 := by
          simp only [maxDim]
          omega
        rw [h2]
        rfl

/-- C6: `Screenshot.onfinish` on a page whose computed full content
height is `H` (the maximum of the script-reported element heights and the
layout-metrics content height) emits one `ScreenshotEvent` per band, at
y-offsets `0, 16384, 2·16384, …` strictly below `H`, each of height
`min (H − yoff, 16384)`; the number of events is `⌈H / 16384⌉`, which for
every viewport height `vh ≤ H` equals `⌈max (H, vh) / 16384⌉`. -/
theorem c6_screenshot_bands (result : List ℕ) (layoutContentHeight : ℕ) (vh : ℕ)
    (hvh : vh ≤ contentHeightOf result layoutContentHeight) :
    screenshotEvents result layoutContentHeight =
      (List.range ((contentHeightOf result layoutContentHeight + maxDim - 1) / maxDim)).map
        (fun k => (maxDim * k,
          min (contentHeightOf result layoutContentHeight - maxDim * k) maxDim))
    ∧ (screenshotEvents result layoutContentHeight).length =
        (max (contentHeightOf result layoutContentHeight) vh + maxDim - 1) / maxDim := by
  have h1 := clipsFrom_eq_aux (contentHeightOf result layoutContentHeight)
    (contentHeightOf result layoutContentHeight) 0 (by omega)
  constructor
  · rw [screenshotEvents, h1]
    simp
  · rw [screenshotEvents, h1]
    rw [List.length_map, List.length_range, Nat.max_eq_left hvh]
    simp

theorem c6_screenshot_bands_witness :
    (screenshotEvents [20000, 5] 1000).length =
        (max (contentHeightOf [20000, 5] 1000) 800 + maxDim - 1) / maxDim
      ∧ screenshotEvents [20000, 5] 1000 = [(0, 16384), (16384, 3616)] := by
  have h := c6_screenshot_bands [20000, 5] 1000 800 (by decide)
  refine ⟨h.2, ?_⟩
  rw [h.1]
  decide

/-! ### Process supervisor -/

theorem pollLoop_all_none (read : ℕ → Option ℕ) (hr : ∀ i, read i = none) :
    ∀ (fuel i : ℕ) (slept : ℚ) (attempts : ℕ),
      pollLoop read fuel i slept attempts =
        (none, slept + (fuel : ℚ) * (1/5), attempts + fuel) := by
  intro fuel
  induction fuel with
  | zero =>
      intro i slept attempts
      rw [pollLoop]
      norm_num
  | succ fuel ih =>
      intro i slept attempts
      rw [pollLoop, hr i, ih (i + 1) (slept + 1/5) (attempts + 1)]
      simp only [Prod.mk.injEq]
      refine ⟨trivial, by push_cast; ring, by omega⟩

theorem rmtreeGo_count_le (ok : ℕ → Bool) :
    ∀ (fuel i : ℕ), countRmtree (rmtreeGo ok fuel i) ≤ fuel := by
  intro fuel
  induction fuel with
  | zero => intro i; rw [rmtreeGo]; simp [countRmtree]
  | succ fuel ih =>
      intro i
      rw [rmtreeGo]
      by_cases h : ok i
      · rw [if_pos h]
        simp [countRmtree]
      · rw [if_neg h]
        have hih := ih (i + 1)
        simp [countRmtree, List.filter_cons] at hih ⊢
        omega

/-- C8 (amended): acquire polls for the DevTools port file 100 times at
200 ms intervals (20 s of sleeps in total) and fails with the plain
generic `Exception ('Chrome died on us.')` — the source defines no
`SpawnError` — when the file never appears; release terminates the child
process, waits for its exit, and retries the profile-directory removal
up to 5 times at 200 ms intervals, tolerating failure of the final
attempt (the trace below ends after the fifth failure without raising). -/
theorem c8_process_lifecycle :
    (∀ read : ℕ → Option ℕ, (∀ i, read i = none) →
        acquirePort read = (.error (.genericError "Chrome died on us."), 20, 100))
    ∧ (∀ ok : ℕ → Bool, (releaseRun ok).take 2 = [.terminate, .wait]
        ∧ countRmtree (releaseRun ok) ≤ 5)
    ∧ rmtreeGo (fun _ => false) 5 0 =
        [.rmtree 0 false, .sleepd (1/5), .rmtree 1 false, .sleepd (1/5),
         .rmtree 2 false, .sleepd (1/5), .rmtree 3 false, .sleepd (1/5),
         .rmtree 4 false, .sleepd (1/5)] := by
  refine ⟨fun read hr => ?_, fun ok => ⟨rfl, ?_⟩, ?_⟩
  · rw [acquirePort, pollLoop_all_none read hr 100 0 0 0]
    norm_num
  · have h := rmtreeGo_count_le ok 5 0
    simpa [releaseRun, countRmtree] using h
  · simp [rmtreeGo]

theorem c8_process_lifecycle_witness :
    acquirePort noPortFile = (.error (.genericError "Chrome died on us."), 20, 100)
      ∧ (releaseRun (fun _ => false)).take 2 = [.terminate, .wait] :=
  ⟨c8_process_lifecycle.1 noPortFile (fun _ => rfl),
   (c8_process_lifecycle.2.1 (fun _ => false)).1⟩

/-- C8 counterexample: at an input where the port file never appears, the
failure raised by `Process.__aenter__` is the plain generic exception,
not the `SpawnError` the claim names. -/
theorem c8_spawn_error_counterexample :
    (acquirePort noPortFile).1 = .error (.genericError "Chrome died on us.")
      ∧ isSpawnError (acquirePort noPortFile).1 = false := by
  constructor
  · rfl
  · rfl

/-! ### StrJsonEncoder -/

theorem c9_aux : ∀ n : ℕ,
    (∀ v : PyValue, sizeOf v ≤ n → goodKeys v = true → ∃ j, strEncode v = .ok j)
    ∧ (∀ xs : List PyValue, sizeOf xs ≤ n → goodKeysList xs = true →
        ∃ js, strEncodeList xs = .ok js)
    ∧ (∀ kvs : List (PyValue × PyValue), sizeOf kvs ≤ n → goodKeysDict kvs = true →
        ∃ js, strEncodeDict kvs = .ok js) := by
  intro n
  induction n using Nat.strong_induction_on with
  | _ n ih =>
    refine ⟨?_, ?_, ?_⟩
    · intro v hs hg
      cases v with
      | pyNone => exact ⟨.jNull, by simp [strEncode]⟩
      | pyBool b => exact ⟨.jBool b, by simp [strEncode]⟩
      | pyInt m => exact ⟨.jInt m, by simp [strEncode]⟩
      | pyStr s => exact ⟨.jStr s, by simp [strEncode]⟩
      | pyDatetime iso => exact ⟨.jStr iso, by simp [strEncode, strJsonDefault]⟩
      | pyObj s =>
          exact ⟨.jStr s, by simp [strEncode, strJsonDefault, jsonEncoderDefault, pyStrOf]⟩
      | pyList xs =>
          have hlt : sizeOf xs < n := by
            have h := hs
            simp at h
            omega
          have hgx : goodKeysList xs = true := by simpa [goodKeys] using hg
          obtain ⟨js, hjs⟩ := (ih (sizeOf xs) hlt).2.1 xs le_rfl hgx
          exact ⟨.jArr js, by simp [strEncode, hjs]⟩
      | pyDict kvs =>
          have hlt : sizeOf kvs < n := by
            have h := hs
            simp at h
            omega
          have hgx : goodKeysDict kvs = true := by simpa [goodKeys] using hg
          obtain ⟨js, hjs⟩ := (ih (sizeOf kvs) hlt).2.2 kvs le_rfl hgx
          exact ⟨.jObj js, by simp [strEncode, hjs]⟩
    · intro xs hs hg
      cases xs with
      | nil => exact ⟨[], by simp [strEncodeList]⟩
      | cons x rest =>
          have hgx : goodKeys x = true ∧ goodKeysList rest = true := by
            simpa [goodKeysList, Bool.and_eq_true] using hg
          have hx : sizeOf x < n := by
            have h := hs
            simp at h
            omega
          have hr : sizeOf rest < n := by
            have h := hs
            simp at h
            omega
          obtain ⟨j, hj⟩ := (ih (sizeOf x) hx).1 x le_rfl hgx.1
          obtain ⟨js, hjs⟩ := (ih (sizeOf rest) hr).2.1 rest le_rfl hgx.2
          exact ⟨j :: js, by simp [strEncodeList, hj, hjs]⟩
    · intro kvs hs hg
      cases kvs with
      | nil => exact ⟨[], by simp [strEncodeDict]⟩
      | cons kv rest =>
          obtain ⟨k, v⟩ := kv
          have hgx : (keyToStr k).isSome = true ∧ goodKeys v = true
              ∧ goodKeysDict rest = true := by
            simpa [goodKeysDict, Bool.and_eq_true, and_assoc] using hg
          obtain ⟨ks, hks⟩ := Option.isSome_iff_exists.mp hgx.1
          have hv : sizeOf v < n := by
            have h := hs
            simp at h
            omega
          have hr : sizeOf rest < n := by
            have h := hs
            simp at h
            omega
          obtain ⟨j, hj⟩ := (ih (sizeOf v) hv).1 v le_rfl hgx.2.1
          obtain ⟨js, hjs⟩ := (ih (sizeOf rest) hr).2.2 rest le_rfl hgx.2.2
          exact ⟨(ks, j) :: js, by simp [strEncodeDict, hks, hj, hjs]⟩

/-- C9 (amended): serialization with `StrJsonEncoder` succeeds for every
value all of whose dictionary keys are of the key types the standard
encoder accepts (str, bool, int, None); datetimes are rendered as their
ISO-8601 string form; and the encoder's `default` method never raises. -/
theorem c9_str_json_encoder :
    (∀ v : PyValue, goodKeys v = true → exceptIsOk (strEncode v) = true)
    ∧ (∀ iso : String, strEncode (.pyDatetime iso) = .ok (.jStr iso))
    ∧ (∀ v : PyValue, exceptIsOk (strJsonDefault v) = true) := by
  refine ⟨fun v hv => ?_, fun iso => by simp [strEncode, strJsonDefault], fun v => ?_⟩
  · obtain ⟨j, hj⟩ := (c9_aux (sizeOf v)).1 v le_rfl hv
    rw [hj]
    rfl
  · cases v <;> rfl

theorem c9_str_json_encoder_witness :
    exceptIsOk (strEncode (.pyDict [(.pyStr "a", .pyList [.pyInt 3, .pyObj "x"])])) = true
      ∧ strEncode (.pyDatetime "2019-01-01T00:00:00") = .ok (.jStr "2019-01-01T00:00:00")
      ∧ exceptIsOk (strJsonDefault (.pyObj "frozenset()")) = true :=
  ⟨c9_str_json_encoder.1 (.pyDict [(.pyStr "a", .pyList [.pyInt 3, .pyObj "x"])])
      (by simp [goodKeys, goodKeysDict, goodKeysList, keyToStr]),
   c9_str_json_encoder.2.1 "2019-01-01T00:00:00",
   c9_str_json_encoder.2.2 (.pyObj "frozenset()")⟩

/-- C9 counterexample: a dictionary whose key is a list makes
`json.dumps (…, cls=StrJsonEncoder)` raise `TypeError` — dict keys are
converted without consulting the encoder's `default` method — so
serialization does not succeed for every Python value. -/
theorem c9_dict_key_counterexample :
    strEncode (.pyDict [(.pyList [], .pyNone)]) =
      .error "keys must be str, int, float, bool or None" := by
  simp [strEncode, strEncodeDict, keyToStr]

/-! ### WARC response records -/

theorem find?_eq_head?_filter {α : Type} (p : α → Bool) :
    ∀ l : List α, l.find? p = (l.filter p).head? := by
  intro l
  induction l with
  | nil => rfl
  | cons a t ih =>
      by_cases h : p a = true
      · rw [List.find?_cons_of_pos t h, List.filter_cons_of_pos h]
        rfl
      · rw [List.find?_cons_of_neg t h, List.filter_cons_of_neg h]
        exact ih

theorem removeFirstHeader_subset (nl : String) :
    ∀ (l : List (String × String)) (p : String × String),
      p ∈ removeFirstHeader l nl → p ∈ l := by
  intro l
  induction l with
  | nil => intro p hp; simp [removeFirstHeader] at hp
  | cons h t ih =>
      intro p hp
      simp only [removeFirstHeader] at hp
      by_cases hm : (strLower h.1 == nl) = true
      · rw [if_pos hm] at hp
        exact List.mem_cons_of_mem h hp
      · rw [if_neg hm] at hp
        rcases List.mem_cons.mp hp with hp | hp
        · rw [hp]; exact List.mem_cons_self h t
        · exact List.mem_cons_of_mem h (ih p hp)

theorem removeFirstHeader_no_match (nl : String) :
    ∀ l : List (String × String),
      (l.filter (fun q => strLower q.1 == nl)).length ≤ 1 →
      ∀ p ∈ removeFirstHeader l nl, (strLower p.1 == nl) = false := by
  intro l
  induction l with
  | nil => intro _ p hp; simp [removeFirstHeader] at hp
  | cons h t ih =>
      intro hcnt p hp
      simp only [removeFirstHeader] at hp
      rw [List.filter_cons] at hcnt
      by_cases hm : (strLower h.1 == nl) = true
      · rw [if_pos hm] at hp
        rw [if_pos hm] at hcnt
        have hft : t.filter (fun q => strLower q.1 == nl) = [] := by
          rw [List.length_cons] at hcnt
          exact List.length_eq_zero.mp (by omega)
        cases hb : (strLower p.1 == nl)
        · rfl
        · exfalso
          have hpf : p ∈ t.filter (fun q => strLower q.1 == nl) :=
            List.mem_filter.mpr ⟨hp, hb⟩
          rw [hft] at hpf
          simp at hpf
      · rw [if_neg hm] at hp
        rw [if_neg hm] at hcnt
        rcases List.mem_cons.mp hp with hpe | hp
        · rw [hpe]
          simpa using hm
        · exact ih hcnt p hp

theorem removeFirstHeader_filter_ne (nl m : String) (hne : m ≠ nl) :
    ∀ l : List (String × String),
      (removeFirstHeader l nl).filter (fun q => strLower q.1 == m) =
        l.filter (fun q => strLower q.1 == m) := by
  intro l
  induction l with
  | nil => rfl
  | cons h t ih =>
      simp only [removeFirstHeader]
      by_cases hm : (strLower h.1 == nl) = true
      · rw [if_pos hm]
        have hhm : (strLower h.1 == m) = false := by
          have heq : strLower h.1 = nl := beq_iff_eq.mp hm
          rw [heq]
          exact beq_eq_false_iff_ne.mpr (Ne.symm hne)
        rw [List.filter_cons, hhm]
        simp
      · rw [if_neg hm]
        rw [List.filter_cons, List.filter_cons]
        cases hhm : (strLower h.1 == m)
        · simpa using ih
        · simpa using ih

theorem mem_remove_header (hs : List (String × String)) (n : String)
    (p : String × String) (hp : p ∈ remove_header hs n) : p ∈ hs := by
  rw [remove_header, List.mem_reverse] at hp
  have := removeFirstHeader_subset (strLower n) hs.reverse p hp
  exact List.mem_reverse.mp this

theorem remove_header_no_match (hs : List (String × String)) (n : String)
    (hcnt : countHeader hs n ≤ 1) :
    ∀ p ∈ remove_header hs n, (strLower p.1 == strLower n) = false := by
  intro p hp
  rw [remove_header, List.mem_reverse] at hp
  refine removeFirstHeader_no_match (strLower n) hs.reverse ?_ p hp
  rw [List.filter_reverse, List.length_reverse]
  exact hcnt

theorem countHeader_remove_header_ne (hs : List (String × String)) (n m : String)
    (hne : strLower m ≠ strLower n) :
    countHeader (remove_header hs n) m = countHeader hs m := by
  rw [countHeader, remove_header, List.filter_reverse, List.length_reverse,
    removeFirstHeader_filter_ne (strLower n) (strLower m) hne hs.reverse,
    List.filter_reverse, List.length_reverse]
  rfl

theorem replaceFirstHeader_none_no_match (nl v : String) :
    ∀ l : List (String × String), replaceFirstHeader l nl v = none →
      ∀ p ∈ l, (strLower p.1 == nl) = false := by
  intro l
  induction l with
  | nil => intro _ p hp; simp at hp
  | cons h t ih =>
      intro hnone p hp
      simp only [replaceFirstHeader] at hnone
      by_cases hm : (strLower h.1 == nl) = true
      · rw [if_pos hm] at hnone
        simp at hnone
      · rw [if_neg hm] at hnone
        rcases List.mem_cons.mp hp with hpe | hp
        · rw [hpe]
          simpa using hm
        · rcases hrec : replaceFirstHeader t nl v with _ | r
          · exact ih hrec p hp
          · rw [hrec] at hnone
            simp at hnone

theorem replaceFirstHeader_mem (nl v : String) :
    ∀ (l r : List (String × String)), replaceFirstHeader l nl v = some r →
      ∀ p ∈ r, ∃ q ∈ l, p.1 = q.1 := by
  intro l
  induction l with
  | nil => intro r hr; simp [replaceFirstHeader] at hr
  | cons h t ih =>
      intro r hr p hp
      simp only [replaceFirstHeader] at hr
      by_cases hm : (strLower h.1 == nl) = true
      · rw [if_pos hm] at hr
        obtain rfl : (h.1, v) :: t = r := by simpa using hr
        rcases List.mem_cons.mp hp with hpe | hp
        · exact ⟨h, List.mem_cons_self h t, by rw [hpe]⟩
        · exact ⟨p, List.mem_cons_of_mem h hp, rfl⟩
      · rw [if_neg hm] at hr
        rcases hrec : replaceFirstHeader t nl v with _ | r'
        · rw [hrec] at hr
          simp at hr
        · rw [hrec] at hr
          obtain rfl : h :: r' = r := by simpa using hr
          rcases List.mem_cons.mp hp with hpe | hp
          · exact ⟨h, List.mem_cons_self h t, by rw [hpe]⟩
          · obtain ⟨q, hq, hq1⟩ := ih r' hrec p hp
            exact ⟨q, List.mem_cons_of_mem h hq, hq1⟩

theorem replaceFirstHeader_filter_ne (nl v m : String) (hne : m ≠ nl) :
    ∀ (l r : List (String × String)), replaceFirstHeader l nl v = some r →
      r.filter (fun q => strLower q.1 == m) = l.filter (fun q => strLower q.1 == m) := by
  intro l
  induction l with
  | nil => intro r hr; simp [replaceFirstHeader] at hr
  | cons h t ih =>
      intro r hr
      simp only [replaceFirstHeader] at hr
      by_cases hm : (strLower h.1 == nl) = true
      · rw [if_pos hm] at hr
        obtain rfl : (h.1, v) :: t = r := by simpa using hr
        have hhm : (strLower h.1 == m) = false := by
          have heq : strLower h.1 = nl := beq_iff_eq.mp hm
          rw [heq]
          exact beq_eq_false_iff_ne.mpr (Ne.symm hne)
        rw [List.filter_cons, List.filter_cons]
        simp only [hhm]
        simp
      · rw [if_neg hm] at hr
        rcases hrec : replaceFirstHeader t nl v with _ | r'
        · rw [hrec] at hr
          simp at hr
        · rw [hrec] at hr
          obtain rfl : h :: r' = r := by simpa using hr
          rw [List.filter_cons, List.filter_cons]
          cases hhm : (strLower h.1 == m)
          · simpa using ih r' hrec
          · simpa using ih r' hrec

theorem replaceFirstHeader_filter_self (nl v : String) :
    ∀ (l r : List (String × String)), replaceFirstHeader l nl v = some r →
      (l.filter (fun q => strLower q.1 == nl)).length ≤ 1 →
      ∃ nm, r.filter (fun q => strLower q.1 == nl) = [(nm, v)] := by
  intro l
  induction l with
  | nil => intro r hr; simp [replaceFirstHeader] at hr
  | cons h t ih =>
      intro r hr hcnt
      simp only [replaceFirstHeader] at hr
      rw [List.filter_cons] at hcnt
      by_cases hm : (strLower h.1 == nl) = true
      · rw [if_pos hm] at hr
        obtain rfl : (h.1, v) :: t = r := by simpa using hr
        rw [if_pos hm, List.length_cons] at hcnt
        have hft : t.filter (fun q => strLower q.1 == nl) = [] :=
          List.length_eq_zero.mp (by omega)
        refine ⟨h.1, ?_⟩
        rw [List.filter_cons]
        simp only [hm]
        simp [hft]
      · rw [if_neg hm] at hr
        rw [if_neg hm] at hcnt
        rcases hrec : replaceFirstHeader t nl v with _ | r'
        · rw [hrec] at hr
          simp at hr
        · rw [hrec] at hr
          obtain rfl : h :: r' = r := by simpa using hr
          obtain ⟨nm, hnm⟩ := ih r' hrec hcnt
          refine ⟨nm, ?_⟩
          rw [List.filter_cons]
          simp only [hm]
          simpa using hnm

theorem replace_header_mem_name (hs : List (String × String)) (n v : String)
    (p : String × String) (hp : p ∈ replace_header hs n v) :
    (∃ q ∈ hs, p.1 = q.1) ∨ p.1 = n := by
  rw [replace_header] at hp
  rcases hrec : replaceFirstHeader hs.reverse (strLower n) v with _ | r
  · rw [hrec] at hp
    rcases List.mem_append.mp hp with hp | hp
    · exact Or.inl ⟨p, hp, rfl⟩
    · simp at hp
      rw [hp]
      exact Or.inr rfl
  · rw [hrec] at hp
    rw [List.mem_reverse] at hp
    obtain ⟨q, hq, hq1⟩ := replaceFirstHeader_mem (strLower n) v hs.reverse r hrec p hp
    exact Or.inl ⟨q, List.mem_reverse.mp hq, hq1⟩

theorem countHeader_replace_header_ne (hs : List (String × String)) (n v m : String)
    (hne : strLower m ≠ strLower n) :
    countHeader (replace_header hs n v) m = countHeader hs m := by
  rw [countHeader, replace_header]
  rcases hrec : replaceFirstHeader hs.reverse (strLower n) v with _ | r
  · rw [List.filter_append]
    have hnv : (strLower n == strLower m) = false :=
      beq_eq_false_iff_ne.mpr (Ne.symm hne)
    simp only [List.filter_cons, List.filter_nil, hnv]
    simp [countHeader]
  · rw [List.filter_reverse, List.length_reverse,
      replaceFirstHeader_filter_ne (strLower n) v (strLower m) hne hs.reverse r hrec,
      List.filter_reverse, List.length_reverse]
    rfl

theorem get_header_replace_header_self (hs : List (String × String)) (n v : String)
    (hcnt : countHeader hs n ≤ 1) :
    get_header (replace_header hs n v) n = some v := by
  rw [get_header, find?_eq_head?_filter, replace_header]
  rcases hrec : replaceFirstHeader hs.reverse (strLower n) v with _ | r
  · have hnomatch := replaceFirstHeader_none_no_match (strLower n) v hs.reverse hrec
    have hfhs : hs.filter (fun q => strLower q.1 == strLower n) = [] := by
      rw [List.filter_eq_nil_iff]
      intro q hq
      have := hnomatch q (List.mem_reverse.mpr hq)
      simp [this]
    rw [List.filter_append, hfhs]
    simp only [List.filter_cons, List.filter_nil, beq_self_eq_true]
    simp
  · obtain ⟨nm, hnm⟩ := replaceFirstHeader_filter_self (strLower n) v hs.reverse r hrec
      (by rw [List.filter_reverse, List.length_reverse]; exact hcnt)
    rw [List.filter_reverse, hnm]
    rfl

theorem get_header_replace_header_ne (hs : List (String × String)) (n v m : String)
    (hne : strLower m ≠ strLower n) :
    get_header (replace_header hs n v) m = get_header hs m := by
  rw [get_header, get_header, find?_eq_head?_filter, find?_eq_head?_filter, replace_header]
  rcases hrec : replaceFirstHeader hs.reverse (strLower n) v with _ | r
  · have hnv : (strLower n == strLower m) = false :=
      beq_eq_false_iff_ne.mpr (Ne.symm hne)
    rw [List.filter_append]
    simp only [List.filter_cons, List.filter_nil, hnv]
    simp
  · rw [List.filter_reverse,
      replaceFirstHeader_filter_ne (strLower n) v (strLower m) hne hs.reverse r hrec,
      List.filter_reverse, List.reverse_reverse]

theorem processHttpHeaders_strips (hs : List (String × String)) (mt : Option String)
    (b64 : Bool) (rb : Option (List ℕ))
    (hte : countHeader hs "transfer-encoding" ≤ 1)
    (hce : countHeader hs "content-encoding" ≤ 1) :
    ∀ p ∈ processHttpHeaders hs mt b64 rb,
      strLower p.1 ≠ "transfer-encoding" ∧ strLower p.1 ≠ "content-encoding" := by
  have lte : strLower "transfer-encoding" = "transfer-encoding" := rfl
  have lce : strLower "content-encoding" = "content-encoding" := rfl
  have h2both : ∀ q ∈ remove_header (remove_header hs "transfer-encoding") "content-encoding",
      strLower q.1 ≠ "transfer-encoding" ∧ strLower q.1 ≠ "content-encoding" := by
    intro q hq
    constructor
    · have hq1 := mem_remove_header _ _ q hq
      have h := remove_header_no_match hs "transfer-encoding" hte q hq1
      have h2 := beq_eq_false_iff_ne.mp h
      rw [lte] at h2
      exact h2
    · have hcnt2 : countHeader (remove_header hs "transfer-encoding") "content-encoding" ≤ 1 := by
        rw [countHeader_remove_header_ne hs "transfer-encoding" "content-encoding" (by decide)]
        exact hce
      have h := remove_header_no_match _ "content-encoding" hcnt2 q hq
      have h2 := beq_eq_false_iff_ne.mp h
      rw [lce] at h2
      exact h2
  intro p hp
  have hname : (∃ q ∈ remove_header (remove_header hs "transfer-encoding") "content-encoding",
      p.1 = q.1) ∨ p.1 = "content-type" ∨ p.1 = "content-length" := by
    rcases mt with _ | ct
    · rcases rb with _ | b
      · simp only [processHttpHeaders] at hp
        exact Or.inl ⟨p, hp, rfl⟩
      · simp only [processHttpHeaders] at hp
        rcases replace_header_mem_name _ _ _ p hp with h | h
        · exact Or.inl h
        · exact Or.inr (Or.inr h)
    · by_cases hem : ct.isEmpty = true
      · rcases rb with _ | b
        · simp only [processHttpHeaders] at hp
          rw [if_pos hem] at hp
          exact Or.inl ⟨p, hp, rfl⟩
        · simp only [processHttpHeaders] at hp
          rw [if_pos hem] at hp
          rcases replace_header_mem_name _ _ _ p hp with h | h
          · exact Or.inl h
          · exact Or.inr (Or.inr h)
      · rcases rb with _ | b
        · simp only [processHttpHeaders] at hp
          rw [if_neg hem] at hp
          rcases replace_header_mem_name _ _ _ p hp with h | h
          · exact Or.inl h
          · exact Or.inr (Or.inl h)
        · simp only [processHttpHeaders] at hp
          rw [if_neg hem] at hp
          rcases replace_header_mem_name _ _ _ p hp with h | h
          · rcases h with ⟨q, hq, hpq⟩
            rcases replace_header_mem_name _ _ _ q hq with h' | h'
            · rcases h' with ⟨q', hq', hqq'⟩
              exact Or.inl ⟨q', hq', hpq.trans hqq'⟩
            · exact Or.inr (Or.inl (hpq.trans h'))
          · exact Or.inr (Or.inr h)
  rcases hname with ⟨q, hq, hpq⟩ | h | h
  · have hres := h2both q hq
    rw [show strLower p.1 = strLower q.1 from congrArg strLower hpq]
    exact hres
  · rw [h]
    exact ⟨by decide, by decide⟩
  · rw [h]
    exact ⟨by decide, by decide⟩

theorem processHttpHeaders_content_type (hs : List (String × String)) (mt : String)
    (rb : Option (List ℕ)) (hct : countHeader hs "content-type" ≤ 1)
    (hmt : mt.isEmpty = false) :
    get_header (processHttpHeaders hs (some mt) false rb) "content-type" =
      some (mt ++ "; charset=utf-8") := by
  have hcnt2 : countHeader (remove_header (remove_header hs "transfer-encoding")
      "content-encoding") "content-type" ≤ 1 := by
    rw [countHeader_remove_header_ne _ "content-encoding" "content-type" (by decide),
      countHeader_remove_header_ne _ "transfer-encoding" "content-type" (by decide)]
    exact hct
  have hrepl := get_header_replace_header_self
    (remove_header (remove_header hs "transfer-encoding") "content-encoding")
    "content-type" (mt ++ "; charset=utf-8") hcnt2
  have hem : ¬ mt.isEmpty = true := by rw [hmt]; simp
  rcases rb with _ | b
  · simp only [processHttpHeaders]
    rw [if_neg hem]
    exact hrepl
  · simp only [processHttpHeaders]
    rw [if_neg hem]
    rw [get_header_replace_header_ne _ "content-length" _ "content-type" (by decide)]
    exact hrepl

theorem processHttpHeaders_content_length (hs : List (String × String))
    (mt : Option String) (b64 : Bool) (b : List ℕ)
    (hcl : countHeader hs "content-length" ≤ 1) :
    get_header (processHttpHeaders hs mt b64 (some b)) "content-length" =
      some (toString b.length) := by
  have hcnt2 : countHeader (remove_header (remove_header hs "transfer-encoding")
      "content-encoding") "content-length" ≤ 1 := by
    rw [countHeader_remove_header_ne _ "content-encoding" "content-length" (by decide),
      countHeader_remove_header_ne _ "transfer-encoding" "content-length" (by decide)]
    exact hcl
  rcases mt with _ | ct
  · simp only [processHttpHeaders]
    exact get_header_replace_header_self _ _ _ hcnt2
  · by_cases hem : ct.isEmpty = true
    · simp only [processHttpHeaders]
      rw [if_pos hem]
      exact get_header_replace_header_self _ _ _ hcnt2
    · simp only [processHttpHeaders]
      rw [if_neg hem]
      refine get_header_replace_header_self _ _ _ ?_
      rw [countHeader_replace_header_ne _ "content-type" _ "content-length" (by decide)]
      exact hcnt2

/-- C4: every WARC response record strips the `transfer-encoding` and
`content-encoding` HTTP headers (assuming each occurs at most once in the
source headers, as Chrome's header dict guarantees); a text (non-base64)
body with a declared MIME type gets `content-type` set to the MIME type
with `; charset=utf-8` appended; and a present body gets `content-length`
set to the byte length of the recorded decoded body. -/
theorem c4_response_record_headers (item : WItem) (concurrentTo : String)
    (hte : countHeader item.responseHeaders "transfer-encoding" ≤ 1)
    (hce : countHeader item.responseHeaders "content-encoding" ≤ 1)
    (hct : countHeader item.responseHeaders "content-type" ≤ 1)
    (hcl : countHeader item.responseHeaders "content-length" ≤ 1) :
    (∀ p ∈ (writeResponse item concurrentTo).httpHeaders,
        strLower p.1 ≠ "transfer-encoding" ∧ strLower p.1 ≠ "content-encoding")
    ∧ (∀ (b : List ℕ) (mt : String), item.isRedirect = false →
        item.body = some (b, false) → item.mimeType = some mt → mt.isEmpty = false →
        get_header (writeResponse item concurrentTo).httpHeaders "content-type" =
          some (mt ++ "; charset=utf-8"))
    ∧ (∀ (b : List ℕ) (enc : Bool), item.isRedirect = false →
        item.body = some (b, enc) →
        get_header (writeResponse item concurrentTo).httpHeaders "content-length" =
          some (toString b.length)) := by
  refine ⟨?_, ?_, ?_⟩
  · intro p hp
    exact processHttpHeaders_strips item.responseHeaders item.mimeType _ _ hte hce p hp
  · intro b mt hred hb hmt hemp
    have hshape : (writeResponse item concurrentTo).httpHeaders =
        processHttpHeaders item.responseHeaders (some mt) false (some b) := by
      simp only [writeResponse, hred, hb, hmt]
    rw [hshape]
    exact processHttpHeaders_content_type item.responseHeaders mt (some b) hct hemp
  · intro b enc hred hb
    have hshape : (writeResponse item concurrentTo).httpHeaders =
        processHttpHeaders item.responseHeaders item.mimeType enc (some b) := by
      simp only [writeResponse, hred, hb]
    rw [hshape]
    exact processHttpHeaders_content_length item.responseHeaders item.mimeType enc b hcl

theorem c4_response_record_headers_witness :
    get_header (writeResponse sampleTextItem "rec-1").httpHeaders "content-type" =
        some ("text/html" ++ "; charset=utf-8")
      ∧ get_header (writeResponse sampleTextItem "rec-1").httpHeaders "content-length" =
          some (toString ([104, 105] : List ℕ).length) := by
  have h := c4_response_record_headers sampleTextItem "rec-1"
    (by decide) (by decide) (by decide) (by decide)
  exact ⟨h.2.1 [104, 105] "text/html" rfl rfl rfl rfl, h.2.2 [104, 105] false rfl rfl⟩

/-- C5: a redirect pair's WARC response record is written without fetching
the response body (the short-circuit never evaluates `item.body`), carries
`WARC-Truncated: unspecified`, carries no `X-Chrome-Base64Body` header,
and has an empty payload. -/
theorem c5_redirect_response_record (item : WItem) (concurrentTo : String)
    (h : item.isRedirect = true) :
    (writeResponse item concurrentTo).calledGetResponseBody = false
      ∧ (writeResponse item concurrentTo).warcHeaders.warcTruncated = some "unspecified"
      ∧ (writeResponse item concurrentTo).warcHeaders.xChromeBase64Body = none
      ∧ (writeResponse item concurrentTo).payload = [] := by
  have ht : optTruthy (some "unspecified") = true := rfl
  refine ⟨?_, ?_, ?_, ?_⟩ <;> simp [writeResponse, h, ht]

theorem c5_redirect_response_record_witness :
    (writeResponse sampleRedirectItem "rec-2").calledGetResponseBody = false
      ∧ (writeResponse sampleRedirectItem "rec-2").warcHeaders.warcTruncated =
          some "unspecified"
      ∧ (writeResponse sampleRedirectItem "rec-2").warcHeaders.xChromeBase64Body = none
      ∧ (writeResponse sampleRedirectItem "rec-2").payload = [] :=
  c5_redirect_response_record sampleRedirectItem "rec-2" rfl

end Crocoite
